import Mathlib

/-!
Shallow embedding of the cpe-library directory site (src/script.js second
`WebinarDirectory` class, src/admin-panel.html `AdminPanel` class, and
src/save_likes.php), together with theorems checking the natural-language
specification against it.

Conventions of the embedding:
* JavaScript numbers that hold integral values (like counts, millisecond
  timestamps, durations) are modelled as `Int`/`Nat`.
* A possibly-`undefined` JavaScript field is an `Option`.
* The browser `localStorage` map `user_webinar_likes` is a `String → Bool`
  membership function (a JS object keyed by id cannot hold duplicate keys).
* The host functions `new Date(s).getTime()` and `new URL(s)` are modelled as
  oracle parameters `parse : String → Option Int` (`none` = `NaN`) and
  `urlOk : String → Bool`; the code only branches on their results.
* A thrown JavaScript exception is `Except.error`.
-/

namespace CpeLibrary

/-- A webinar record, from the fields `script.js` reads.
`certificate_available` is `Option Bool` because the feed may omit it
(`validateWebinarData` does not require it); `likes` is `Option Int` because
records can lack the counter (`webinar.likes || 0`). -/
structure Webinar where
  id : String
  title : String
  provider : String
  url : String
  description : String
  topics : List String
  format : String
  duration_min : Nat
  certificate_available : Option Bool
  live_date : String
  date_added : String
  likes : Option Int
  deriving Repr, DecidableEq

/-- The filter configuration object (`this.filters` in the constructor,
script.js:954-963). An empty string means the predicate is inactive. -/
structure Filters where
  search : String
  provider : String
  topic : String
  format : String
  duration : String
  certificate : String
  date : String
  liked : String
  deriving Repr, DecidableEq

/-- `this.currentSort` (script.js:953). Both fields are strings in the source
(`direction` is `"asc"` or `"desc"`). -/
structure SortState where
  field : String
  direction : String
  deriving Repr, DecidableEq

/-- In-memory state of the `WebinarDirectory` class plus the piece of
`localStorage` it reads (`user_webinar_likes`). -/
structure DirectoryState where
  webinars : List Webinar
  filteredWebinars : List Webinar
  currentSort : SortState
  filters : Filters
  dataModified : Bool
  userLikes : String → Bool

/-- The constructor state (script.js:950-964): empty store, default sort
`date_added`/`desc`, all filters empty, clean modified flag. `userLikes`
is whatever localStorage holds; a fresh browser has the empty map. -/
def initialDirectoryState : DirectoryState where
  webinars := []
  filteredWebinars := []
  currentSort := { field := "date_added", direction := "desc" }
  filters := { search := "", provider := "", topic := "", format := "",
               duration := "", certificate := "", date := "", liked := "" }
  dataModified := false
  userLikes := fun _ => false

/-- Mutating the record returned by `this.webinars.find(...)` updates the
first matching element of the array in place. -/
def updateFirst (webinarId : String) (f : Webinar → Webinar) : List Webinar → List Webinar
  | [] => []
  | w :: ws => if w.id = webinarId then f w :: ws else w :: updateFirst webinarId f ws

/-- `getLikeCount` (script.js:1912-1915): find the record, return
`webinar.likes || 0` (so a missing field or missing record counts as 0). -/
def getLikeCount (s : DirectoryState) (webinarId : String) : Int :=
  match s.webinars.find? (fun w => w.id = webinarId) with
  | some w => w.likes.getD 0
  | none => 0

/-- `isWebinarLiked` (script.js:1917-1920): `userLikes[webinarId] || false`. -/
def isWebinarLiked (s : DirectoryState) (webinarId : String) : Bool :=
  s.userLikes webinarId

/-- `toggleLike` (script.js:1922-1959). Not-found is a no-op toast. The
`if (!webinar.likes) webinar.likes = 0` initialization makes the working
count `webinar.likes.getD 0` (both `undefined` and `0` are falsy and are
reset to `0`; any other number is kept). Unlike: `Math.max(0, likes - 1)`
and the key is deleted; like: `likes + 1` and the key is set. The flag
`dataModified` is set; the server call and re-render have no state effect. -/
def toggleLike (s : DirectoryState) (webinarId : String) : DirectoryState :=
  match s.webinars.find? (fun w => w.id = webinarId) with
  | none => s
  | some w =>
    let liked := s.userLikes webinarId
    let count : Int := w.likes.getD 0
    let newCount : Int := if liked then max 0 (count - 1) else count + 1
    { s with
      webinars := updateFirst webinarId (fun v => { v with likes := some newCount }) s.webinars
      userLikes := fun x => if x = webinarId then !liked else s.userLikes x
      dataModified := true }

/-- `n` consecutive `toggleLike(id)` calls. -/
def iterateToggle (s : DirectoryState) (webinarId : String) : Nat → DirectoryState
  | 0 => s
  | n + 1 => toggleLike (iterateToggle s webinarId n) webinarId

/-- A finite sequence of `toggleLike` calls on arbitrary ids, applied in
order. -/
def applyToggles (s : DirectoryState) : List String → DirectoryState
  | [] => s
  | i :: is => applyToggles (toggleLike s i) is

namespace UpdateFirstLemmas

theorem find?_updateFirst (webinarId : String) (f : Webinar → Webinar)
    (l : List Webinar) (hf : ∀ w, (f w).id = w.id) :
    (updateFirst webinarId f l).find? (fun w => w.id = webinarId) =
      (l.find? (fun w => w.id = webinarId)).map f := by
  induction l with
  | nil => rfl
  | cons w ws ih =>
    by_cases h : w.id = webinarId
    · simp [updateFirst, h, List.find?, hf]
    · simp [updateFirst, h, List.find?, ih]

theorem mem_updateFirst (webinarId : String) (f : Webinar → Webinar)
    (l : List Webinar) (v : Webinar) (hv : v ∈ updateFirst webinarId f l) :
    v ∈ l ∨ ∃ w ∈ l, v = f w := by
  induction l with
  | nil => simp [updateFirst] at hv
  | cons w ws ih =>
    by_cases h : w.id = webinarId
    · simp only [updateFirst, if_pos h] at hv
      rcases List.mem_cons.mp hv with h1 | h1
      · exact Or.inr ⟨w, List.mem_cons_self w ws, h1⟩
      · exact Or.inl (List.mem_cons_of_mem w h1)
    · simp only [updateFirst, if_neg h] at hv
      rcases List.mem_cons.mp hv with h1 | h1
      · exact Or.inl (h1 ▸ List.mem_cons_self w ws)
      · rcases ih h1 with h2 | ⟨u, hu, hfu⟩
        · exact Or.inl (List.mem_cons_of_mem w h2)
        · exact Or.inr ⟨u, List.mem_cons_of_mem w hu, hfu⟩

end UpdateFirstLemmas

/-- After a toggle on a present id, the observable pair
(count, membership) evolves by the source arithmetic. -/
theorem toggleLike_obs (s : DirectoryState) (webinarId : String)
    (h : (s.webinars.find? (fun w => w.id = webinarId)).isSome) :
    getLikeCount (toggleLike s webinarId) webinarId =
      (if s.userLikes webinarId then max 0 (getLikeCount s webinarId - 1)
       else getLikeCount s webinarId + 1) ∧
    isWebinarLiked (toggleLike s webinarId) webinarId = !(s.userLikes webinarId) := by
  rcases Option.isSome_iff_exists.mp h with ⟨w, hw⟩
  constructor
  · simp only [getLikeCount, toggleLike, hw]
    rw [UpdateFirstLemmas.find?_updateFirst, hw]
    · simp [getLikeCount, hw]
    · intro v; rfl
  · simp [isWebinarLiked, toggleLike, hw]

/-- Toggling keeps the set of matching records non-empty. -/
theorem toggleLike_find_isSome (s : DirectoryState) (webinarId : String)
    (h : (s.webinars.find? (fun w => w.id = webinarId)).isSome) :
    ((toggleLike s webinarId).webinars.find? (fun w => w.id = webinarId)).isSome := by
  rcases Option.isSome_iff_exists.mp h with ⟨w, hw⟩
  simp only [toggleLike, hw]
  rw [UpdateFirstLemmas.find?_updateFirst, hw]
  · rfl
  · intro v; rfl

/-- A toggle on a different id does not move the record found for `id`. -/
theorem find?_updateFirst_ne (i otherId : String) (f : Webinar → Webinar)
    (l : List Webinar) (hne : i ≠ otherId) (hf : ∀ w, (f w).id = w.id) :
    (updateFirst i f l).find? (fun w => w.id = otherId) =
      l.find? (fun w => w.id = otherId) := by
  induction l with
  | nil => rfl
  | cons w ws ih =>
    by_cases h : w.id = i
    · have h1 : ¬ (f w).id = otherId := by rw [hf, h]; exact hne
      have h2 : ¬ w.id = otherId := by rw [h]; exact hne
      simp [updateFirst, h, List.find?, h1, h2, hne]
    · by_cases h2 : w.id = otherId
      · simp [updateFirst, h, List.find?, h2, Ne.symm hne]
      · simp [updateFirst, h, List.find?, h2, ih]

/-- One `toggleLike` call, on any id, keeps a non-negative observed count
non-negative. -/
theorem toggleLike_getLikeCount_nonneg (s : DirectoryState) (i webinarId : String)
    (h : 0 ≤ getLikeCount s webinarId) :
    0 ≤ getLikeCount (toggleLike s i) webinarId := by
  by_cases hi : i = webinarId
  · subst hi
    cases hfind : s.webinars.find? (fun w => w.id = i) with
    | none => simpa [toggleLike, hfind] using h
    | some v =>
      have hobs := (toggleLike_obs s i (by simp [hfind])).1
      rw [hobs]
      split <;> omega
  · cases hfind : s.webinars.find? (fun w => w.id = i) with
    | none => simpa [toggleLike, hfind] using h
    | some v =>
      simp only [getLikeCount, toggleLike, hfind]
      rw [find?_updateFirst_ne]
      · exact h
      · exact hi
      · intro v; rfl

/-- The observed count stays non-negative along any sequence of toggles. -/
theorem applyToggles_getLikeCount_nonneg (ids : List String) :
    ∀ s : DirectoryState, ∀ webinarId : String, 0 ≤ getLikeCount s webinarId →
      0 ≤ getLikeCount (applyToggles s ids) webinarId := by
  induction ids with
  | nil => intro s webinarId h; exact h
  | cons i is ih =>
    intro s webinarId h
    exact ih (toggleLike s i) webinarId (toggleLike_getLikeCount_nonneg s i webinarId h)

/-- A double toggle restores the observables when the starting state is
consistent (count non-negative, and at least 1 when the user holds a like). -/
theorem toggle_twice_obs (s : DirectoryState) (webinarId : String)
    (hp : (s.webinars.find? (fun w => w.id = webinarId)).isSome)
    (h0 : 0 ≤ getLikeCount s webinarId)
    (h1 : isWebinarLiked s webinarId = true → 1 ≤ getLikeCount s webinarId) :
    getLikeCount (toggleLike (toggleLike s webinarId) webinarId) webinarId =
        getLikeCount s webinarId ∧
      isWebinarLiked (toggleLike (toggleLike s webinarId) webinarId) webinarId =
        isWebinarLiked s webinarId := by
  have hobs1 := toggleLike_obs s webinarId hp
  have hp1 := toggleLike_find_isSome s webinarId hp
  have hobs2 := toggleLike_obs (toggleLike s webinarId) webinarId hp1
  simp only [isWebinarLiked] at hobs1 hobs2 h1 ⊢
  obtain ⟨hc1, hb1⟩ := hobs1
  obtain ⟨hc2, hb2⟩ := hobs2
  constructor
  · rw [hc2, hb1, hc1]
    cases hb : s.userLikes webinarId with
    | false => simp; omega
    | true =>
      have hge := h1 hb
      simp; omega
  · rw [hb2, hb1, Bool.not_not]

/-- Unrolled even iteration: observables and presence after `2 * k` toggles,
with the consistency invariant carried along. -/
theorem iterate_even_toggle_obs (s : DirectoryState) (webinarId : String)
    (hp : (s.webinars.find? (fun w => w.id = webinarId)).isSome)
    (h0 : 0 ≤ getLikeCount s webinarId)
    (h1 : isWebinarLiked s webinarId = true → 1 ≤ getLikeCount s webinarId) :
    ∀ k : Nat,
      getLikeCount (iterateToggle s webinarId (2 * k)) webinarId =
          getLikeCount s webinarId ∧
        isWebinarLiked (iterateToggle s webinarId (2 * k)) webinarId =
          isWebinarLiked s webinarId ∧
        ((iterateToggle s webinarId (2 * k)).webinars.find?
          (fun w => w.id = webinarId)).isSome := by
  intro k
  induction k with
  | zero => exact ⟨rfl, rfl, hp⟩
  | succ n ih =>
    obtain ⟨hc, hb, hs⟩ := ih
    have h2 : 2 * (n + 1) = 2 * n + 1 + 1 := by omega
    rw [h2]
    have hgood0 : 0 ≤ getLikeCount (iterateToggle s webinarId (2 * n)) webinarId := by
      rw [hc]; exact h0
    have hgood1 : isWebinarLiked (iterateToggle s webinarId (2 * n)) webinarId = true →
        1 ≤ getLikeCount (iterateToggle s webinarId (2 * n)) webinarId := by
      rw [hb, hc]; exact h1
    have htw := toggle_twice_obs (iterateToggle s webinarId (2 * n)) webinarId hs hgood0 hgood1
    have hs2 := toggleLike_find_isSome _ webinarId (toggleLike_find_isSome _ webinarId hs)
    exact ⟨by rw [show iterateToggle s webinarId (2 * n + 1 + 1) =
            toggleLike (toggleLike (iterateToggle s webinarId (2 * n)) webinarId) webinarId from rfl,
          htw.1, hc],
        by rw [show iterateToggle s webinarId (2 * n + 1 + 1) =
            toggleLike (toggleLike (iterateToggle s webinarId (2 * n)) webinarId) webinarId from rfl,
          htw.2, hb],
        hs2⟩

/-- Concrete record used in counterexamples and witnesses. -/
def sampleWebinar : Webinar where
  id := "acs-safety-webinar"
  title := "Lab Safety"
  provider := "ACS"
  url := "https://acs.org/w1"
  description := "overview"
  topics := ["safety"]
  format := "live"
  duration_min := 60
  certificate_available := some true
  live_date := "2025-06-01"
  date_added := "2025-01-01"
  likes := some 0

/-- A store holding `sampleWebinar` with a like count of 0 while the local
per-user membership set already marks it liked (the membership set lives in
`localStorage` and survives a server-side counter reset, so this state is
reachable in the deployed system). -/
def inconsistentState : DirectoryState :=
  { initialDirectoryState with
      webinars := [sampleWebinar]
      userLikes := fun x => x == "acs-safety-webinar" }

/-- CX for C1: the record is present, the user membership says liked, and the
global counter is 0; two consecutive `toggleLike` calls drift the counter
from 0 to 1 (the unlike is floored at 0, the re-like increments), so the
counter does not return to its pre-toggle value. -/
theorem c1_even_toggles_cex :
    isWebinarLiked inconsistentState "acs-safety-webinar" = true ∧
      getLikeCount inconsistentState "acs-safety-webinar" = 0 ∧
      getLikeCount (iterateToggle inconsistentState "acs-safety-webinar" 2)
          "acs-safety-webinar" = 1 := by
  exact ⟨rfl, rfl, by decide⟩

/-- C1 (amended): for every record id present in the store, an even number of
consecutive `toggleLike(id)` calls returns both `isWebinarLiked(id)` and
`getLikeCount(id)` to their pre-toggle values, provided the starting state is
consistent: the counter is non-negative, and it is at least 1 whenever the
per-user membership set already marks the record liked. -/
theorem c1_even_toggles_roundtrip (s : DirectoryState) (webinarId : String) (k : Nat)
    (hp : (s.webinars.find? (fun w => w.id = webinarId)).isSome)
    (h0 : 0 ≤ getLikeCount s webinarId)
    (h1 : isWebinarLiked s webinarId = true → 1 ≤ getLikeCount s webinarId) :
    getLikeCount (iterateToggle s webinarId (2 * k)) webinarId =
        getLikeCount s webinarId ∧
      isWebinarLiked (iterateToggle s webinarId (2 * k)) webinarId =
        isWebinarLiked s webinarId :=
  ⟨(iterate_even_toggle_obs s webinarId hp h0 h1 k).1,
   (iterate_even_toggle_obs s webinarId hp h0 h1 k).2.1⟩

/-- A consistent liked state: count 2, membership set. -/
def consistentLikedState : DirectoryState :=
  { initialDirectoryState with
      webinars := [{ sampleWebinar with likes := some 2 }]
      userLikes := fun x => x == "acs-safety-webinar" }

/-- Witness for the amended C1 theorem at a concrete consistent state and
`k = 2` (four toggles). -/
theorem c1_even_toggles_roundtrip_witness :
    getLikeCount (iterateToggle consistentLikedState "acs-safety-webinar" (2 * 2))
        "acs-safety-webinar" =
      getLikeCount consistentLikedState "acs-safety-webinar" ∧
    isWebinarLiked (iterateToggle consistentLikedState "acs-safety-webinar" (2 * 2))
        "acs-safety-webinar" =
      isWebinarLiked consistentLikedState "acs-safety-webinar" :=
  c1_even_toggles_roundtrip consistentLikedState "acs-safety-webinar" 2
    (by decide) (by decide) (by decide)

/-- C2: starting from any store where the observed counter of a record is
non-negative (in particular a count of 0), every finite sequence of
`toggleLike` calls keeps it non-negative. A prefix of a sequence is itself a
sequence, so the counter is non-negative after every call of the sequence. -/
theorem c2_likes_never_negative (s : DirectoryState) (ids : List String)
    (webinarId : String) (h : 0 ≤ getLikeCount s webinarId) :
    0 ≤ getLikeCount (applyToggles s ids) webinarId :=
  applyToggles_getLikeCount_nonneg ids s webinarId h

/-- Witness for C2: the sample record starts at count 0 and stays
non-negative across a concrete five-call toggle sequence. -/
theorem c2_likes_never_negative_witness :
    0 ≤ getLikeCount
        (applyToggles inconsistentState
          ["acs-safety-webinar", "acs-safety-webinar", "missing-id",
           "acs-safety-webinar", "acs-safety-webinar"])
        "acs-safety-webinar" :=
  c2_likes_never_negative inconsistentState
    ["acs-safety-webinar", "acs-safety-webinar", "missing-id",
     "acs-safety-webinar", "acs-safety-webinar"]
    "acs-safety-webinar" (by decide)

/-- `"true"`/`"false"`, the result of `Boolean.prototype.toString`. -/
def jsBoolString (b : Bool) : String := if b then "true" else "false"

/-- The search haystack (script.js:1197):
`` `${title} ${description} ${topics.join(' ')}`.toLowerCase() ``. -/
def searchableText (w : Webinar) : String :=
  (w.title ++ " " ++ w.description ++ " " ++ String.intercalate " " w.topics).toLower

/-- `String.prototype.includes`: the pattern occurs as a contiguous run of
the text (the empty pattern always occurs). -/
def charsInfix (pat : List Char) : List Char → Bool
  | [] => pat.isEmpty
  | c :: t => pat.isPrefixOf (c :: t) || charsInfix pat t

/-- `searchableText.includes(searchTerm.toLowerCase())` as substring search on
the character lists. -/
def searchHit (term : String) (w : Webinar) : Bool :=
  charsInfix term.toLower.data (searchableText w).data

/-- The duration `switch` (script.js:1213-1218): each named bucket rejects
values outside it; any other non-empty filter value rejects nothing. -/
def durationReject (v : String) (d : Nat) : Bool :=
  if v = "0-30" then decide (d > 30)
  else if v = "31-60" then decide (d < 31) || decide (d > 60)
  else if v = "61-90" then decide (d < 61) || decide (d > 90)
  else if v = "91+" then decide (d < 91)
  else false

/-- The date filter branch (script.js:1225-1238). The source computes
`diffDays = (date - now) / 86400000` in double arithmetic and tests
`diffDays < 0` and `diffDays > 30`; for integral millisecond timestamps these
tests coincide exactly with the integer tests on `t - now` used here because
division by a positive constant preserves order and the double rounding error
is far smaller than the distance between distinct quotients and 30. -/
def dateReject (parse : String → Option Int) (now : Int) (v : String) (w : Webinar) : Bool :=
  if v = "live" then decide (w.format ≠ "live")
  else if v = "on-demand" then decide (w.format ≠ "on-demand")
  else if v = "upcoming" then
    if w.format ≠ "live" then true
    else if w.live_date = "" ∨ w.live_date = "on-demand" ∨ w.live_date = "Unknown" then true
    else
      match parse w.live_date with
      | none => true
      | some t => decide (t - now < 0) || decide (t - now > 30 * 86400000)
  else false

/-- Tail of the per-record predicate of `applyFilters`: date filter then
liked filter then accept (script.js:1224-1245). -/
def passesFromDate (parse : String → Option Int) (now : Int) (likes : String → Bool)
    (f : Filters) (w : Webinar) : Except Unit Bool :=
  if f.date ≠ "" ∧ dateReject parse now f.date w = true then .ok false
  else if f.liked = "liked" ∧ likes w.id = false then .ok false
  else .ok true

/-- The per-record predicate of `applyFilters` (script.js:1193-1245), with
its early `return false` exits in source order. The certificate branch
evaluates `webinar.certificate_available.toString()`; on a record without
the field this is `undefined.toString()`, a thrown `TypeError`, modelled as
`Except.error`. -/
def passes (parse : String → Option Int) (now : Int) (likes : String → Bool)
    (f : Filters) (w : Webinar) : Except Unit Bool :=
  if f.search ≠ "" ∧ searchHit f.search w = false then .ok false
  else if f.provider ≠ "" ∧ w.provider ≠ f.provider then .ok false
  else if f.topic ≠ "" ∧ w.topics.contains f.topic = false then .ok false
  else if f.format ≠ "" ∧ w.format ≠ f.format then .ok false
  else if f.duration ≠ "" ∧ durationReject f.duration w.duration_min = true then .ok false
  else if f.certificate ≠ "" then
    match w.certificate_available with
    | none => .error ()
    | some b =>
      if jsBoolString b ≠ f.certificate then .ok false
      else passesFromDate parse now likes f w
  else passesFromDate parse now likes f w

/-- `Array.prototype.filter` with a predicate that can throw: elements are
tested in order and the first exception aborts the whole call. -/
def filterE (p : Webinar → Except Unit Bool) : List Webinar → Except Unit (List Webinar)
  | [] => .ok []
  | w :: ws =>
    match p w with
    | .error e => .error e
    | .ok b =>
      match filterE p ws with
      | .error e => .error e
      | .ok rest => .ok (if b then w :: rest else rest)

/-- `applyFilters` (script.js:1192-1250) as a state transformer: it recomputes
`this.filteredWebinars` from `this.webinars` and the filter configuration
(rendering has no state effect). A thrown predicate exception propagates and
leaves the state unassigned. -/
def applyFilters (parse : String → Option Int) (now : Int) (s : DirectoryState) :
    Except Unit DirectoryState :=
  match filterE (passes parse now s.userLikes s.filters) s.webinars with
  | .error e => .error e
  | .ok fw => .ok { s with filteredWebinars := fw }

/-- `validateWebinarData` (script.js:975-993): the required fields are
`id`, `title`, `provider`, `url` (a falsy — empty — value fails), then the
URL must parse; the host `new URL` check is the oracle `urlOk`. -/
def validateWebinarData (urlOk : String → Bool) (w : Webinar) : Bool :=
  if w.id = "" then false
  else if w.title = "" then false
  else if w.provider = "" then false
  else if w.url = "" then false
  else urlOk w.url

/-- A filter configuration whose only active predicate is the date filter. -/
def dateOnlyFilters (v : String) : Filters where
  search := ""
  provider := ""
  topic := ""
  format := ""
  duration := ""
  certificate := ""
  date := v
  liked := ""

/-- A filter configuration whose only active predicate is the duration
bucket. -/
def durationOnlyFilters (v : String) : Filters where
  search := ""
  provider := ""
  topic := ""
  format := ""
  duration := v
  certificate := ""
  date := ""
  liked := ""

/-- A filter configuration whose only active predicate is the certificate
filter. -/
def certificateOnlyFilters (v : String) : Filters where
  search := ""
  provider := ""
  topic := ""
  format := ""
  duration := ""
  certificate := v
  date := ""
  liked := ""

/-- C3: the `upcoming` date mode admits a record exactly when the format is
`live`, the `live_date` is neither empty nor a sentinel, the host date parse
yields a timestamp, and that timestamp lies within `[now, now + 30 days]`.
An unparseable or sentinel `live_date` therefore never matches `upcoming`. -/
theorem c3_upcoming_characterization (parse : String → Option Int) (now : Int)
    (likes : String → Bool) (w : Webinar) :
    passes parse now likes (dateOnlyFilters "upcoming") w = .ok true ↔
      (w.format = "live" ∧ w.live_date ≠ "" ∧ w.live_date ≠ "on-demand" ∧
        w.live_date ≠ "Unknown" ∧
        ∃ t, parse w.live_date = some t ∧ 0 ≤ t - now ∧ t - now ≤ 30 * 86400000) := by
  simp only [passes, dateOnlyFilters, passesFromDate, dateReject]
  by_cases hf : w.format = "live"
  · by_cases h1 : w.live_date = "" ∨ w.live_date = "on-demand" ∨ w.live_date = "Unknown"
    · rcases h1 with h1 | h1 | h1 <;> simp [hf, h1]
    · push_neg at h1
      obtain ⟨he, ho, hu⟩ := h1
      cases hp : parse w.live_date with
      | none => simp [hf, he, ho, hu, hp]
      | some t => simp [hf, he, ho, hu, hp]
  · simp [hf]

/-- Scenario record with `duration_min = 25`. -/
def shortWebinar : Webinar := { sampleWebinar with id := "short-w", duration_min := 25 }

/-- Scenario record with `duration_min = 45`. -/
def midWebinar : Webinar := { sampleWebinar with id := "mid-w", duration_min := 45 }

/-- Store with the two scenario records and the duration filter `0-30`. -/
def durationScenarioState : DirectoryState :=
  { initialDirectoryState with
      webinars := [shortWebinar, midWebinar]
      filters := durationOnlyFilters "0-30" }

/-- C5: the duration buckets are the closed ranges 0-30, 31-60, 61-90 and
91+ on `duration_min`, and on the two scenario records (durations 25 and 45)
the `0-30` filter yields exactly the first. -/
theorem c5_duration_buckets (parse : String → Option Int) (now : Int)
    (likes : String → Bool) :
    (∀ w : Webinar, passes parse now likes (durationOnlyFilters "0-30") w = .ok true ↔
        0 ≤ w.duration_min ∧ w.duration_min ≤ 30) ∧
      (∀ w : Webinar, passes parse now likes (durationOnlyFilters "31-60") w = .ok true ↔
        31 ≤ w.duration_min ∧ w.duration_min ≤ 60) ∧
      (∀ w : Webinar, passes parse now likes (durationOnlyFilters "61-90") w = .ok true ↔
        61 ≤ w.duration_min ∧ w.duration_min ≤ 90) ∧
      (∀ w : Webinar, passes parse now likes (durationOnlyFilters "91+") w = .ok true ↔
        91 ≤ w.duration_min) ∧
      applyFilters (fun _ => none) 0 durationScenarioState =
        .ok { durationScenarioState with filteredWebinars := [shortWebinar] } := by
  refine ⟨?_, ?_, ?_, ?_, rfl⟩ <;>
    (intro w
     simp [passes, durationOnlyFilters, passesFromDate, durationReject, dateReject]
     try omega)

/-- C6: `applyFilters` is pure. On success it leaves every input component of
the state untouched (the record collection, the filter configuration, the
sort state, the modified flag, and the user-like map), and running it again
from the produced state returns that state unchanged — two calls on the same
inputs give identical output. -/
theorem c6_applyFilters_pure (parse : String → Option Int) (now : Int)
    (s s' : DirectoryState) (h : applyFilters parse now s = .ok s') :
    s'.webinars = s.webinars ∧ s'.filters = s.filters ∧
      s'.currentSort = s.currentSort ∧ s'.dataModified = s.dataModified ∧
      s'.userLikes = s.userLikes ∧ applyFilters parse now s' = .ok s' := by
  unfold applyFilters at h
  cases hfe : filterE (passes parse now s.userLikes s.filters) s.webinars with
  | error e => rw [hfe] at h; cases h
  | ok fw =>
    rw [hfe] at h
    cases h
    refine ⟨rfl, rfl, rfl, rfl, rfl, ?_⟩
    unfold applyFilters
    rw [show ({ s with filteredWebinars := fw } : DirectoryState).webinars = s.webinars from rfl,
      hfe]

/-- State after applying the scenario filter once. -/
def durationScenarioFiltered : DirectoryState :=
  { durationScenarioState with filteredWebinars := [shortWebinar] }

/-- Witness for C6 at the concrete duration scenario store. -/
theorem c6_applyFilters_pure_witness :
    durationScenarioFiltered.webinars = durationScenarioState.webinars ∧
      durationScenarioFiltered.filters = durationScenarioState.filters ∧
      durationScenarioFiltered.currentSort = durationScenarioState.currentSort ∧
      durationScenarioFiltered.dataModified = durationScenarioState.dataModified ∧
      durationScenarioFiltered.userLikes = durationScenarioState.userLikes ∧
      applyFilters (fun _ => none) 0 durationScenarioFiltered =
        .ok durationScenarioFiltered :=
  c6_applyFilters_pure (fun _ => none) 0 durationScenarioState durationScenarioFiltered rfl

/-- If some record of the list lacks `certificate_available`, filtering with
a predicate that reaches the certificate branch throws. -/
theorem filterE_error_of_mem_none (parse : String → Option Int) (now : Int)
    (likes : String → Bool) (c : String) (hc : c ≠ "")
    (l : List Webinar) (w : Webinar) (hw : w ∈ l)
    (hnone : w.certificate_available = none) :
    filterE (passes parse now likes (certificateOnlyFilters c)) l = .error () := by
  induction l with
  | nil => cases hw
  | cons a as ih =>
    have hpass : ∀ v : Webinar, v.certificate_available = none →
        passes parse now likes (certificateOnlyFilters c) v = .error () := by
      intro v hv
      simp [passes, certificateOnlyFilters, hv, hc]
    rcases List.mem_cons.mp hw with rfl | hmem
    · simp [filterE, hpass w hnone]
    · cases hpa : passes parse now likes (certificateOnlyFilters c) a with
      | error e => simp [filterE, hpa]
      | ok b => simp [filterE, hpa, ih hmem]

/-- C10: if any record in the store lacks `certificate_available`, applying
the filters with a non-empty certificate filter value throws a `TypeError`
(`undefined.toString()`) instead of returning a filtered list, while
`validateWebinarData` is entirely insensitive to that field (so such records
are admitted by the load-time validation). -/
theorem c10_certificate_filter_throws (parse : String → Option Int) (now : Int)
    (s : DirectoryState) (c : String) (w : Webinar)
    (hfil : s.filters = certificateOnlyFilters c) (hc : c ≠ "")
    (hw : w ∈ s.webinars) (hnone : w.certificate_available = none) :
    applyFilters parse now s = .error () ∧
      ∀ (urlOk : String → Bool) (v : Webinar) (x : Option Bool),
        validateWebinarData urlOk { v with certificate_available := x } =
          validateWebinarData urlOk v := by
  constructor
  · unfold applyFilters
    rw [hfil, filterE_error_of_mem_none parse now s.userLikes c hc s.webinars w hw hnone]
  · intro urlOk v x
    rfl

/-- Store holding one record without the certificate field, certificate
filter active. -/
def undefinedCertState : DirectoryState :=
  { initialDirectoryState with
      webinars := [{ sampleWebinar with certificate_available := none }]
      filters := certificateOnlyFilters "true" }

/-- Witness for C10 at a concrete store: the filter call throws and the
validation outcome ignores the certificate field. -/
theorem c10_certificate_filter_throws_witness :
    applyFilters (fun _ => none) 0 undefinedCertState = .error () ∧
      ∀ (urlOk : String → Bool) (v : Webinar) (x : Option Bool),
        validateWebinarData urlOk { v with certificate_available := x } =
          validateWebinarData urlOk v :=
  c10_certificate_filter_throws (fun _ => none) 0 undefinedCertState "true"
    { sampleWebinar with certificate_available := none }
    rfl (by decide) (by simp [undefinedCertState, initialDirectoryState]) rfl

/-- `sortTable`'s next sort state (script.js:1281-1283): same field while
ascending flips to descending, anything else yields ascending. -/
def nextSort (cur : SortState) (f : String) : SortState where
  field := f
  direction := if cur.field = f ∧ cur.direction = "asc" then "desc" else "asc"

/-- `getDateValue` inside `sortTable` (script.js:1302-1309): a falsy or
sentinel `live_date` maps to 0; otherwise the host date parse runs
(`getTime` does not throw, so the `catch` is dead; an unparseable string
yields `NaN`, modelled as `none`). -/
def getDateValue (parse : String → Option Int) (v : String) : Option Int :=
  if v = "" ∨ v = "on-demand" ∨ v = "Unknown" then some 0 else parse v

/-- `a > b` on JS numbers where `none` is `NaN`: any comparison with `NaN`
is false. -/
def optGt : Option Int → Option Int → Bool
  | some a, some b => decide (b < a)
  | _, _ => false

/-- The ascending `live_date` comparator of `sortTable` admits `a` before `b`
when the comparator value is ≤ 0, i.e. not `aVal > bVal`. -/
def liveDateLe (parse : String → Option Int) (a b : Webinar) : Bool :=
  ! optGt (getDateValue parse a.live_date) (getDateValue parse b.live_date)

/-- Stable insertion into a sorted list: the new element goes before the
first element it compares ≤ to. -/
def orderedInsertB {α : Type} (le : α → α → Bool) (a : α) : List α → List α
  | [] => [a]
  | b :: l => if le a b then a :: b :: l else b :: orderedInsertB le a l

/-- Stable comparator sort. `Array.prototype.sort` is required to be stable
(ES2019), and for a consistent comparator the stable sorted permutation is
unique, so insertion sort is an exact model on the lists the theorems
quantify over. -/
def insortB {α : Type} (le : α → α → Bool) : List α → List α
  | [] => []
  | a :: l => orderedInsertB le a (insortB le l)

/-- `sortTable('live_date')` with ascending direction, restricted to its
effect on the visible list. -/
def sortTableLiveDateAsc (parse : String → Option Int) (l : List Webinar) : List Webinar :=
  insortB (liveDateLe parse) l

theorem perm_orderedInsertB {α : Type} (le : α → α → Bool) (a : α) (l : List α) :
    (orderedInsertB le a l).Perm (a :: l) := by
  induction l with
  | nil => exact List.Perm.refl _
  | cons b t ih =>
    by_cases h : le a b = true
    · simp only [orderedInsertB, if_pos h]
      exact List.Perm.refl _
    · simp only [orderedInsertB, if_neg h]
      exact (List.Perm.cons b ih).trans (List.Perm.swap a b t)

theorem perm_insortB {α : Type} (le : α → α → Bool) (l : List α) :
    (insortB le l).Perm l := by
  induction l with
  | nil => exact List.Perm.refl _
  | cons a t ih =>
    exact (perm_orderedInsertB le a (insortB le t)).trans (List.Perm.cons a ih)

theorem mem_orderedInsertB {α : Type} (le : α → α → Bool) (a x : α) (l : List α) :
    x ∈ orderedInsertB le a l ↔ x = a ∨ x ∈ l := by
  rw [(perm_orderedInsertB le a l).mem_iff]
  exact List.mem_cons

theorem mem_insortB {α : Type} (le : α → α → Bool) (x : α) (l : List α) :
    x ∈ insortB le l ↔ x ∈ l :=
  (perm_insortB le l).mem_iff

theorem pairwise_orderedInsertB {α : Type} (le : α → α → Bool) (a : α) (l : List α)
    (htot : ∀ x ∈ l, le a x = true ∨ le x a = true)
    (htrans : ∀ x ∈ l, ∀ y ∈ l, le a x = true → le x y = true → le a y = true)
    (hp : l.Pairwise (fun x y => le x y = true)) :
    (orderedInsertB le a l).Pairwise (fun x y => le x y = true) := by
  induction l with
  | nil => simp [orderedInsertB]
  | cons b t ih =>
    rw [List.pairwise_cons] at hp
    obtain ⟨hb, hpt⟩ := hp
    by_cases hab : le a b = true
    · simp only [orderedInsertB, if_pos hab]
      rw [List.pairwise_cons]
      refine ⟨?_, List.pairwise_cons.mpr ⟨hb, hpt⟩⟩
      intro x hx
      rcases List.mem_cons.mp hx with rfl | hx
      · exact hab
      · exact htrans b (List.mem_cons_self b t) x (List.mem_cons_of_mem b hx) hab (hb x hx)
    · simp only [orderedInsertB, if_neg hab]
      rw [List.pairwise_cons]
      constructor
      · intro x hx
        rcases (mem_orderedInsertB le a x t).mp hx with rfl | hx
        · rcases htot b (List.mem_cons_self b t) with h | h
          · exact absurd h hab
          · exact h
        · exact hb x hx
      · exact ih (fun x hx => htot x (List.mem_cons_of_mem b hx))
          (fun x hx y hy => htrans x (List.mem_cons_of_mem b hx) y (List.mem_cons_of_mem b hy))
          hpt

theorem pairwise_insortB {α : Type} (le : α → α → Bool) (l : List α)
    (htot : ∀ x ∈ l, ∀ y ∈ l, le x y = true ∨ le y x = true)
    (htrans : ∀ x ∈ l, ∀ y ∈ l, ∀ z ∈ l, le x y = true → le y z = true → le x z = true) :
    (insortB le l).Pairwise (fun x y => le x y = true) := by
  induction l with
  | nil => simp [insortB]
  | cons a t ih =>
    have hsub : ∀ x ∈ t, x ∈ a :: t := fun x hx => List.mem_cons_of_mem a hx
    have hpt := ih (fun x hx y hy => htot x (hsub x hx) y (hsub y hy))
      (fun x hx y hy z hz => htrans x (hsub x hx) y (hsub y hy) z (hsub z hz))
    refine pairwise_orderedInsertB le a (insortB le t) ?_ ?_ hpt
    · intro x hx
      exact htot a (List.mem_cons_self a t) x (hsub x ((mem_insortB le x t).mp hx))
    · intro x hx y hy
      exact htrans a (List.mem_cons_self a t) x (hsub x ((mem_insortB le x t).mp hx))
        y (hsub y ((mem_insortB le y t).mp hy))

theorem liveDateLe_iff (parse : String → Option Int) (x y : Webinar)
    (hx : (getDateValue parse x.live_date).isSome)
    (hy : (getDateValue parse y.live_date).isSome) :
    liveDateLe parse x y = true ↔
      (getDateValue parse x.live_date).getD 0 ≤ (getDateValue parse y.live_date).getD 0 := by
  rcases Option.isSome_iff_exists.mp hx with ⟨a, ha⟩
  rcases Option.isSome_iff_exists.mp hy with ⟨b, hb⟩
  rw [liveDateLe, ha, hb]
  simp [optGt]

/-- C7 (amended): when sorting by `live_date` ascending, every value is
mapped to a numeric key, the sentinels `on-demand`/`Unknown`/empty map to 0,
no record is excluded (the output is a permutation of the input), and on any
list whose dates are all sentinel-or-parseable, a record with a sentinel is
never preceded by a record whose parsed timestamp is positive — sentinels
sort before every date after the Unix epoch. (A parseable date before the
epoch has a negative timestamp and legitimately sorts before the sentinel's
0, which is why the claim is restricted to positive timestamps.) -/
theorem c7_live_date_sort_order (parse : String → Option Int) (l : List Webinar)
    (hcomp : ∀ w ∈ l, (getDateValue parse w.live_date).isSome) :
    getDateValue parse "" = some 0 ∧
      getDateValue parse "on-demand" = some 0 ∧
      getDateValue parse "Unknown" = some 0 ∧
      (sortTableLiveDateAsc parse l).Perm l ∧
      (sortTableLiveDateAsc parse l).Pairwise
        (fun a b =>
          (b.live_date = "" ∨ b.live_date = "on-demand" ∨ b.live_date = "Unknown") →
          ¬(a.live_date = "" ∨ a.live_date = "on-demand" ∨ a.live_date = "Unknown") →
          ∀ t, parse a.live_date = some t → t ≤ 0) := by
  refine ⟨rfl, rfl, rfl, perm_insortB _ l, ?_⟩
  have hpw := pairwise_insortB (liveDateLe parse) l
    (fun x hx y hy => by
      rcases Option.isSome_iff_exists.mp (hcomp x hx) with ⟨a, ha⟩
      rcases Option.isSome_iff_exists.mp (hcomp y hy) with ⟨b, hb⟩
      rw [liveDateLe, liveDateLe, ha, hb]
      simp [optGt]
      omega)
    (fun x hx y hy z hz hxy hyz => by
      rw [liveDateLe_iff parse x y (hcomp x hx) (hcomp y hy)] at hxy
      rw [liveDateLe_iff parse y z (hcomp y hy) (hcomp z hz)] at hyz
      rw [liveDateLe_iff parse x z (hcomp x hx) (hcomp z hz)]
      omega)
  refine hpw.imp ?_
  intro a b hle hbsent hansent t hpt
  have hkb : getDateValue parse b.live_date = some 0 := by
    rw [getDateValue, if_pos hbsent]
  have hka : getDateValue parse a.live_date = some t := by
    rw [getDateValue, if_neg hansent, hpt]
  rw [liveDateLe, hka, hkb] at hle
  simp [optGt] at hle
  omega

/-- A record whose `live_date` is one day before the Unix epoch. ECMAScript
`new Date("1969-12-31").getTime()` is exactly -86400000, which is the value
the oracle below assigns. -/
def preEpochWebinar : Webinar := { sampleWebinar with id := "old", live_date := "1969-12-31" }

/-- A record with the `on-demand` sentinel date. -/
def sentinelWebinar : Webinar := { sampleWebinar with id := "od", live_date := "on-demand" }

/-- Date-parse oracle agreeing with the JS `Date` on the one string used. -/
def preEpochParse : String → Option Int :=
  fun s => if s = "1969-12-31" then some (-86400000) else none

/-- CX for C7: under ascending `live_date` sort, the record with the
parseable real date `1969-12-31` (timestamp -86400000 < 0) stays in front of
the sentinel record (key 0), so a sentinel does not sort before every record
carrying a real parseable date. -/
theorem c7_live_date_sort_cex :
    sortTableLiveDateAsc preEpochParse [preEpochWebinar, sentinelWebinar] =
        [preEpochWebinar, sentinelWebinar] ∧
      preEpochParse preEpochWebinar.live_date = some (-86400000) ∧
      sentinelWebinar.live_date = "on-demand" := by
  exact ⟨by decide, rfl, rfl⟩

/-- A record with a post-epoch parseable date. -/
def modernWebinar : Webinar := { sampleWebinar with id := "new", live_date := "2025-06-01" }

/-- Oracle agreeing with the JS `Date` on `2025-06-01`. -/
def modernParse : String → Option Int :=
  fun s => if s = "2025-06-01" then some 1748736000000 else none

/-- Witness for the amended C7 theorem on a concrete comparable list. -/
theorem c7_live_date_sort_order_witness :
    getDateValue modernParse "" = some 0 ∧
      getDateValue modernParse "on-demand" = some 0 ∧
      getDateValue modernParse "Unknown" = some 0 ∧
      (sortTableLiveDateAsc modernParse [modernWebinar, sentinelWebinar]).Perm
        [modernWebinar, sentinelWebinar] ∧
      (sortTableLiveDateAsc modernParse [modernWebinar, sentinelWebinar]).Pairwise
        (fun a b =>
          (b.live_date = "" ∨ b.live_date = "on-demand" ∨ b.live_date = "Unknown") →
          ¬(a.live_date = "" ∨ a.live_date = "on-demand" ∨ a.live_date = "Unknown") →
          ∀ t, modernParse a.live_date = some t → t ≤ 0) :=
  c7_live_date_sort_order modernParse [modernWebinar, sentinelWebinar] (by decide)

/-- C8: invoking `sortTable` on the current sort field toggles the direction
(ascending becomes descending, descending becomes ascending), and invoking
it on any other field always resets to ascending; the clicked field becomes
the current field. -/
theorem c8_sort_direction_rules (cur : SortState) (f : String) :
    (nextSort cur f).field = f ∧
      (cur.field = f → cur.direction = "asc" → (nextSort cur f).direction = "desc") ∧
      (cur.field = f → cur.direction = "desc" → (nextSort cur f).direction = "asc") ∧
      (cur.field ≠ f → (nextSort cur f).direction = "asc") := by
  refine ⟨rfl, ?_, ?_, ?_⟩
  · intro h1 h2; simp [nextSort, h1, h2]
  · intro h1 h2; simp [nextSort, h1, h2]
  · intro h1; simp [nextSort, h1]

/-- Witness for C8: a same-field click flips `asc` to `desc` and `desc` to
`asc`, a new-field click resets to `asc` (from the constructor's default
`date_added`/`desc` state). -/
theorem c8_sort_direction_rules_witness :
    (nextSort { field := "title", direction := "asc" } "title").direction = "desc" ∧
      (nextSort { field := "title", direction := "desc" } "title").direction = "asc" ∧
      (nextSort initialDirectoryState.currentSort "likes").direction = "asc" :=
  ⟨(c8_sort_direction_rules { field := "title", direction := "asc" } "title").2.1 rfl rfl,
   (c8_sort_direction_rules { field := "title", direction := "desc" } "title").2.2.1 rfl rfl,
   (c8_sort_direction_rules initialDirectoryState.currentSort "likes").2.2.2 (by decide)⟩

/-- The serialized snapshot produced by the export paths:
`{webinars, last_updated: todayISO, total_count}`. -/
structure ExportDoc where
  webinars : List Webinar
  last_updated : String
  total_count : Nat
  deriving Repr, DecidableEq

/-- `integratePendingWebinars` (script.js:1083-1101): appends the staged
records and marks the store modified only when the staging area is
non-empty. -/
def integratePendingWebinars (s : DirectoryState) (pending : List Webinar) : DirectoryState :=
  if pending ≠ [] then { s with webinars := s.webinars ++ pending, dataModified := true }
  else s

/-- `migrateLikesFromLocalStorage`'s forEach over `Object.keys(oldLikes)`
(script.js:1103-1125): each entry whose id is found and whose count is
positive adds that count to the record's `likes` and to `migratedCount`. -/
def migrateStep : List Webinar → List (String × Int) → List Webinar × Int
  | ws, [] => (ws, 0)
  | ws, (webinarId, c) :: rest =>
    match ws.find? (fun w => w.id = webinarId) with
    | some _ =>
      if 0 < c then
        let ws1 := updateFirst webinarId
          (fun w => { w with likes := some (w.likes.getD 0 + c) }) ws
        let r := migrateStep ws1 rest
        (r.1, r.2 + c)
      else migrateStep ws rest
    | none => migrateStep ws rest

/-- `migrateLikesFromLocalStorage` (script.js:1103-1125): the modified flag
is set only when `migratedCount > 0`. -/
def migrateLikes (s : DirectoryState) (old : List (String × Int)) : DirectoryState :=
  let r := migrateStep s.webinars old
  if 0 < r.2 then { s with webinars := r.1, dataModified := true }
  else { s with webinars := r.1 }

/-- `saveWebinarChanges` (script.js:1792-1831): replace the record at the
found index, refresh the visible copy, and mark modified; `index === -1`
leaves everything unchanged. -/
def editWebinar (s : DirectoryState) (editingId : String) (upd : Webinar) : DirectoryState :=
  match s.webinars.find? (fun w => w.id = editingId) with
  | none => s
  | some _ =>
    let ws := updateFirst editingId (fun _ => upd) s.webinars
    { s with webinars := ws, filteredWebinars := ws, dataModified := true }

/-- `deleteWebinar` (script.js:1841-1864): a missing id or a declined
confirm dialog is a no-op; otherwise both arrays drop the record and the
modified flag is set. -/
def deleteWebinarDir (s : DirectoryState) (webinarId : String) (confirmed : Bool) :
    DirectoryState :=
  match s.webinars.find? (fun w => w.id = webinarId) with
  | none => s
  | some _ =>
    if confirmed then
      { s with webinars := s.webinars.filter (fun w => ¬ w.id = webinarId),
               filteredWebinars := s.filteredWebinars.filter (fun w => ¬ w.id = webinarId),
               dataModified := true }
    else s

/-- `exportUpdatedData` (script.js:1866-1887): with a clean flag it only
shows a toast; with a dirty flag it downloads the snapshot. In both cases
the state — in particular `dataModified` — is untouched. -/
def exportUpdatedData (s : DirectoryState) (today : String) :
    Option ExportDoc × DirectoryState :=
  if s.dataModified = false then (none, s)
  else (some { webinars := s.webinars, last_updated := today,
               total_count := s.webinars.length }, s)

/-- In-memory state of the `AdminPanel` class (admin-panel.html:360-366)
plus the two external inputs it reads: the canonical feed and the
`pendingWebinars` staging area in localStorage. -/
structure AdminState where
  webinars : List Webinar
  filteredWebinars : List Webinar
  dataModified : Bool
  staging : List Webinar
  feed : List Webinar

/-- The `AdminPanel` constructor (admin-panel.html:361-366): empty arrays
and a clean modified flag. -/
def initialAdminState (feed staging : List Webinar) : AdminState where
  webinars := []
  filteredWebinars := []
  dataModified := false
  staging := staging
  feed := feed

/-- `AdminPanel.integratePendingWebinars` (admin-panel.html:394-404). -/
def adminIntegratePending (s : AdminState) : AdminState :=
  if s.staging ≠ [] then
    { s with webinars := s.webinars ++ s.staging, dataModified := true, staging := [] }
  else s

/-- `AdminPanel.loadData` (admin-panel.html:377-392): fetch the feed,
integrate staged records, refresh the visible copy. -/
def adminLoadData (s : AdminState) : AdminState :=
  let s1 := adminIntegratePending { s with webinars := s.feed }
  { s1 with filteredWebinars := s1.webinars }

/-- `AdminPanel.deleteWebinar` (admin-panel.html:649-661). -/
def adminDeleteWebinar (s : AdminState) (webinarId : String) (confirmed : Bool) :
    AdminState :=
  match s.webinars.find? (fun w => w.id = webinarId) with
  | none => s
  | some _ =>
    if confirmed then
      { s with webinars := s.webinars.filter (fun w => ¬ w.id = webinarId),
               filteredWebinars := s.filteredWebinars.filter (fun w => ¬ w.id = webinarId),
               dataModified := true }
    else s

/-- `AdminPanel.submitAddForm` (admin-panel.html:764-813): a `certificate`
form value of `"false"` is rejected with an alert; otherwise the built
record is pushed and the modified flag set. -/
def adminSubmitAdd (s : AdminState) (certStr : String) (rec : Webinar) : AdminState :=
  if certStr = "false" then s
  else
    let rec1 := { rec with certificate_available := some (certStr = "true") }
    { s with webinars := s.webinars ++ [rec1],
             filteredWebinars := s.webinars ++ [rec1],
             dataModified := true }

/-- `AdminPanel.clearChanges` (admin-panel.html:687-697): on confirm, the
flag is cleared and the canonical feed reloaded over the in-memory state. -/
def adminClearChanges (s : AdminState) (confirmed : Bool) : AdminState :=
  if confirmed then adminLoadData { s with dataModified := false } else s

/-- `AdminPanel.exportChanges` (admin-panel.html:699-720): a clean flag is
an alert-only no-op, a dirty flag downloads the snapshot; the state is
untouched either way. -/
def adminExportChanges (s : AdminState) (today : String) :
    Option ExportDoc × AdminState :=
  if s.dataModified = false then (none, s)
  else (some { webinars := s.webinars, last_updated := today,
               total_count := s.webinars.length }, s)

/-- `AdminPanel.exportData` (admin-panel.html:663-677): the full export is
always available and also leaves the state untouched. -/
def adminExportAll (s : AdminState) (today : String) :
    Option ExportDoc × AdminState :=
  (some { webinars := s.webinars, last_updated := today,
          total_count := s.webinars.length }, s)

/-- The operations the admin panel can run on its state. -/
inductive AdminOp where
  | load
  | del (webinarId : String) (confirmed : Bool)
  | add (certStr : String) (rec : Webinar)
  | clear (confirmed : Bool)
  | exportChangesOp
  | exportAllOp

/-- One admin operation applied to the state (exports keep only the state
component). -/
def adminStep (s : AdminState) : AdminOp → AdminState
  | .load => adminLoadData s
  | .del webinarId c => adminDeleteWebinar s webinarId c
  | .add c r => adminSubmitAdd s c r
  | .clear c => adminClearChanges s c
  | .exportChangesOp => (adminExportChanges s "").2
  | .exportAllOp => (adminExportAll s "").2

theorem migrateStep_snd_nonneg (old : List (String × Int)) :
    ∀ ws : List Webinar, 0 ≤ (migrateStep ws old).2 := by
  induction old with
  | nil => intro ws; simp [migrateStep]
  | cons q rest ih =>
    intro ws
    obtain ⟨webinarId, c⟩ := q
    cases hf : ws.find? (fun w => w.id = webinarId) with
    | none => simpa [migrateStep, hf] using ih ws
    | some v =>
      by_cases hc : 0 < c
      · have hn := ih (updateFirst webinarId
          (fun w => { w with likes := some (w.likes.getD 0 + c) }) ws)
        simp only [migrateStep, hf, if_pos hc]
        omega
      · simpa [migrateStep, hf, hc] using ih ws

theorem migrateStep_snd_pos (old : List (String × Int)) :
    ∀ ws : List Webinar,
      (∃ p ∈ old, 0 < p.2 ∧ (ws.find? (fun w => w.id = p.1)).isSome) →
      0 < (migrateStep ws old).2 := by
  induction old with
  | nil =>
    intro ws h
    obtain ⟨p, hp, _⟩ := h
    cases hp
  | cons q rest ih =>
    intro ws h
    obtain ⟨webinarId, c⟩ := q
    cases hf : ws.find? (fun w => w.id = webinarId) with
    | some v =>
      by_cases hc : 0 < c
      · have hn := migrateStep_snd_nonneg rest (updateFirst webinarId
          (fun w => { w with likes := some (w.likes.getD 0 + c) }) ws)
        simp only [migrateStep, hf, if_pos hc]
        omega
      · obtain ⟨p, hp, hpc, hps⟩ := h
        rcases List.mem_cons.mp hp with rfl | hp
        · exact absurd hpc hc
        · simpa [migrateStep, hf, hc] using ih ws ⟨p, hp, hpc, hps⟩
    | none =>
      obtain ⟨p, hp, hpc, hps⟩ := h
      rcases List.mem_cons.mp hp with rfl | hp
      · rw [hf] at hps; cases hps
      · simpa [migrateStep, hf] using ih ws ⟨p, hp, hpc, hps⟩

/-- C4: the state machine of the modified flag. It starts clean in both
classes' constructors; every mutating operation — admin delete on a present
id with a confirmed dialog, admin add with an accepted certificate value,
integration of a non-empty staging area, directory like-toggle / edit /
delete on a present id, and a likes migration that migrates a positive
count — sets it dirty; the export operations of both classes never change
it; a confirmed "discard changes" with an empty staging area clears it and
reloads the canonical feed over the in-memory store; and across the admin
operation alphabet, the only operation that can take the flag from dirty to
clean is "discard changes". -/
theorem c4_modified_flag_state_machine :
    (∀ feed staging : List Webinar,
        (initialAdminState feed staging).dataModified = false ∧
        initialDirectoryState.dataModified = false) ∧
      (∀ (s : AdminState) (webinarId : String),
        (s.webinars.find? (fun w => w.id = webinarId)).isSome →
        (adminDeleteWebinar s webinarId true).dataModified = true) ∧
      (∀ (s : AdminState) (certStr : String) (rec : Webinar), certStr ≠ "false" →
        (adminSubmitAdd s certStr rec).dataModified = true) ∧
      (∀ s : AdminState, s.staging ≠ [] →
        (adminIntegratePending s).dataModified = true) ∧
      (∀ (s : DirectoryState) (pending : List Webinar), pending ≠ [] →
        (integratePendingWebinars s pending).dataModified = true) ∧
      (∀ (s : DirectoryState) (webinarId : String),
        (s.webinars.find? (fun w => w.id = webinarId)).isSome →
        (toggleLike s webinarId).dataModified = true) ∧
      (∀ (s : DirectoryState) (editingId : String) (upd : Webinar),
        (s.webinars.find? (fun w => w.id = editingId)).isSome →
        (editWebinar s editingId upd).dataModified = true) ∧
      (∀ (s : DirectoryState) (webinarId : String),
        (s.webinars.find? (fun w => w.id = webinarId)).isSome →
        (deleteWebinarDir s webinarId true).dataModified = true) ∧
      (∀ (s : DirectoryState) (old : List (String × Int)),
        (∃ p ∈ old, 0 < p.2 ∧ (s.webinars.find? (fun w => w.id = p.1)).isSome) →
        (migrateLikes s old).dataModified = true) ∧
      (∀ (s : AdminState) (today : String),
        (adminExportChanges s today).2.dataModified = s.dataModified ∧
        (adminExportAll s today).2.dataModified = s.dataModified) ∧
      (∀ (s : DirectoryState) (today : String),
        (exportUpdatedData s today).2.dataModified = s.dataModified) ∧
      (∀ s : AdminState, s.staging = [] →
        (adminClearChanges s true).dataModified = false ∧
        (adminClearChanges s true).webinars = s.feed) ∧
      (∀ (s : AdminState) (op : AdminOp), s.dataModified = true →
        (adminStep s op).dataModified = false → ∃ c, op = AdminOp.clear c) := by
  refine ⟨fun _ _ => ⟨rfl, rfl⟩, ?_, ?_, ?_, ?_, ?_, ?_, ?_, ?_, ?_, ?_, ?_, ?_⟩
  · intro s webinarId h
    rcases Option.isSome_iff_exists.mp h with ⟨w, hw⟩
    simp [adminDeleteWebinar, hw]
  · intro s certStr rec h
    simp [adminSubmitAdd, h]
  · intro s h
    simp [adminIntegratePending, h]
  · intro s pending h
    simp [integratePendingWebinars, h]
  · intro s webinarId h
    rcases Option.isSome_iff_exists.mp h with ⟨w, hw⟩
    simp [toggleLike, hw]
  · intro s editingId upd h
    rcases Option.isSome_iff_exists.mp h with ⟨w, hw⟩
    simp [editWebinar, hw]
  · intro s webinarId h
    rcases Option.isSome_iff_exists.mp h with ⟨w, hw⟩
    simp [deleteWebinarDir, hw]
  · intro s old h
    have := migrateStep_snd_pos old s.webinars h
    simp [migrateLikes, this]
  · intro s today
    constructor
    · by_cases h : s.dataModified = false <;> simp [adminExportChanges, h]
    · rfl
  · intro s today
    by_cases h : s.dataModified = false <;> simp [exportUpdatedData, h]
  · intro s h
    constructor
    · simp [adminClearChanges, adminLoadData, adminIntegratePending, h]
    · simp [adminClearChanges, adminLoadData, adminIntegratePending, h]
  · intro s op hdirty hclean
    cases op with
    | load =>
      exfalso
      by_cases h : s.staging = [] <;>
        simp [adminStep, adminLoadData, adminIntegratePending, h, hdirty] at hclean
    | del webinarId c =>
      exfalso
      cases hf : s.webinars.find? (fun w => w.id = webinarId) with
      | none => simp [adminStep, adminDeleteWebinar, hf, hdirty] at hclean
      | some w =>
        cases c <;> simp [adminStep, adminDeleteWebinar, hf, hdirty] at hclean
    | add certStr rec =>
      exfalso
      by_cases h : certStr = "false" <;>
        simp [adminStep, adminSubmitAdd, h, hdirty] at hclean
    | clear c => exact ⟨c, rfl⟩
    | exportChangesOp =>
      exfalso
      by_cases h : s.dataModified = false
      · rw [h] at hdirty; simp at hdirty
      · simp [adminStep, adminExportChanges, h, hdirty] at hclean
    | exportAllOp =>
      exfalso
      simp [adminStep, adminExportAll, hdirty] at hclean

/-- A loaded, clean admin state over a one-record feed. -/
def demoAdminState : AdminState where
  webinars := [sampleWebinar]
  filteredWebinars := [sampleWebinar]
  dataModified := false
  staging := []
  feed := [sampleWebinar]

/-- The same admin state after some mutation (dirty flag). -/
def demoDirtyAdminState : AdminState := { demoAdminState with dataModified := true }

/-- The same admin state with one staged record. -/
def demoStagedAdminState : AdminState := { demoAdminState with staging := [midWebinar] }

/-- Witness for C4 at concrete states: each mutation dirties the flag, the
confirmed discard cleans it and restores the feed, and the only-discard
clause applied at a discard operation. -/
theorem c4_modified_flag_state_machine_witness :
    (adminDeleteWebinar demoAdminState "acs-safety-webinar" true).dataModified = true ∧
      (adminSubmitAdd demoAdminState "true" sampleWebinar).dataModified = true ∧
      (adminIntegratePending demoStagedAdminState).dataModified = true ∧
      (integratePendingWebinars inconsistentState [midWebinar]).dataModified = true ∧
      (toggleLike inconsistentState "acs-safety-webinar").dataModified = true ∧
      (editWebinar inconsistentState "acs-safety-webinar" midWebinar).dataModified = true ∧
      (deleteWebinarDir inconsistentState "acs-safety-webinar" true).dataModified = true ∧
      (migrateLikes inconsistentState [("acs-safety-webinar", 3)]).dataModified = true ∧
      (adminClearChanges demoDirtyAdminState true).dataModified = false ∧
      (adminClearChanges demoDirtyAdminState true).webinars = demoDirtyAdminState.feed ∧
      (∃ c, AdminOp.clear true = AdminOp.clear c) := by
  obtain ⟨h1, h2, h3, h4, h5, h6, h7, h8, h9, h10, h11, h12, h13⟩ :=
    c4_modified_flag_state_machine
  exact ⟨h2 demoAdminState "acs-safety-webinar" (by decide),
    h3 demoAdminState "true" sampleWebinar (by decide),
    h4 demoStagedAdminState (by decide),
    h5 inconsistentState [midWebinar] (by decide),
    h6 inconsistentState "acs-safety-webinar" (by decide),
    h7 inconsistentState "acs-safety-webinar" midWebinar (by decide),
    h8 inconsistentState "acs-safety-webinar" (by decide),
    h9 inconsistentState [("acs-safety-webinar", 3)] (by decide),
    (h12 demoDirtyAdminState rfl).1,
    (h12 demoDirtyAdminState rfl).2,
    h13 demoDirtyAdminState (AdminOp.clear true) rfl (by decide)⟩

/-- Decoded POST body of `save_likes.php`, abstracted to the distinctions
the script tests. `failed` is `json_decode` returning `null` (invalid JSON
or the literal `null`); `falsy` is any other PHP-falsy decode result
(`false`, `0`, `""`, `"0"`, the empty array) — both fail the `!$data` check;
`noWebinars` is a truthy value without a `webinars` array; `withWebinars`
has one (a PHP value with a `webinars` key is a non-empty array, hence
truthy, so this case split is exact). -/
inductive ReqBody where
  | failed
  | falsy
  | noWebinars
  | withWebinars (ws : List Webinar)
  deriving Repr, DecidableEq

/-- Response body written by `save_likes.php`. -/
inductive SaveResp where
  | success
  | errorResp (msg : String)
  deriving Repr, DecidableEq

/-- Server-side filesystem state seen by `save_likes.php`: whether
`webinars.json` exists, whether the `file_put_contents` write will succeed,
the modification times of the existing `webinars_backup_*.json` files, and
the current time (the mtime a fresh backup receives). -/
structure ServerState where
  fileExists : Bool
  writeOk : Bool
  backups : List Int
  now : Int
  deriving Repr, DecidableEq

/-- Backup cleanup (save_likes.php:46-58): with more than 5 backups, `usort`
by ascending mtime and `unlink` the oldest `count - 5`. -/
def pruneBackups (l : List Int) : List Int :=
  if 5 < l.length then (insortB (fun a b => decide (a ≤ b)) l).drop (l.length - 5)
  else l

/-- `save_likes.php` request handling (lines 14-60): 400 on a falsy decode
or a missing/non-array `webinars` key; then a timestamped backup copy of
`webinars.json` if and only if that file exists; then the write, answered
with 500 on failure; then the backup pruning and the 200 success body. -/
def saveLikes (req : ReqBody) (st : ServerState) : Nat × SaveResp × ServerState :=
  match req with
  | .failed => (400, .errorResp "Invalid JSON data", st)
  | .falsy => (400, .errorResp "Invalid JSON data", st)
  | .noWebinars => (400, .errorResp "Invalid data structure", st)
  | .withWebinars _ =>
    let st1 := if st.fileExists then { st with backups := st.backups ++ [st.now] } else st
    if st.writeOk then
      (200, .success, { st1 with fileExists := true, backups := pruneBackups st1.backups })
    else
      (500, .errorResp "Failed to save data", st1)

theorem pruneBackups_length_le (l : List Int) : (pruneBackups l).length ≤ 5 := by
  unfold pruneBackups
  by_cases h : 5 < l.length
  · rw [if_pos h, List.length_drop, (perm_insortB _ l).length_eq]
    omega
  · rw [if_neg h]
    omega

theorem pruneBackups_subset (l : List Int) (x : Int) (hx : x ∈ pruneBackups l) : x ∈ l := by
  unfold pruneBackups at hx
  by_cases h : 5 < l.length
  · rw [if_pos h] at hx
    exact (mem_insortB _ x l).mp (List.mem_of_mem_drop hx)
  · rwa [if_neg h] at hx

theorem pruneBackups_keeps_recent (l : List Int) (x : Int) (hx : x ∈ l)
    (hdrop : x ∉ pruneBackups l) : ∀ y ∈ pruneBackups l, x ≤ y := by
  intro y hy
  unfold pruneBackups at hdrop hy
  by_cases h : 5 < l.length
  · rw [if_pos h] at hdrop hy
    set le : Int → Int → Bool := fun a b => decide (a ≤ b) with hle
    have hpw : (insortB le l).Pairwise (fun a b => le a b = true) :=
      pairwise_insortB le l
        (fun a _ b _ => by simp [hle]; omega)
        (fun a _ b _ c _ hab hbc => by simp [hle] at hab hbc ⊢; omega)
    have hxs : x ∈ insortB le l := (mem_insortB le x l).mpr hx
    have hsplit : insortB le l =
        (insortB le l).take (l.length - 5) ++ (insortB le l).drop (l.length - 5) :=
      (List.take_append_drop _ _).symm
    have hxtake : x ∈ (insortB le l).take (l.length - 5) := by
      rcases List.mem_append.mp (hsplit ▸ hxs) with h1 | h1
      · exact h1
      · exact absurd h1 hdrop
    have hcross := (List.pairwise_append.mp (hsplit ▸ hpw)).2.2
    have := hcross x hxtake y hy
    simpa [hle] using this
  · rw [if_neg h] at hdrop
    exact absurd hx hdrop

theorem pruneBackups_ne_nil (l : List Int) (hl : l ≠ []) : pruneBackups l ≠ [] := by
  unfold pruneBackups
  by_cases h : 5 < l.length
  · rw [if_pos h]
    have : ((insortB (fun a b => decide (a ≤ b)) l).drop (l.length - 5)).length = 5 := by
      rw [List.length_drop, (perm_insortB _ l).length_eq]
      omega
    intro hnil
    rw [hnil] at this
    simp at this
  · rwa [if_neg h]

/-- The freshest backup (strictly newer than every previous one) survives
the pruning. -/
theorem pruneBackups_mem_newest (old : List Int) (now : Int)
    (hnew : ∀ m ∈ old, m < now) : now ∈ pruneBackups (old ++ [now]) := by
  by_contra hmem
  have hin : now ∈ old ++ [now] := List.mem_append.mpr (Or.inr (List.mem_singleton.mpr rfl))
  have hrec := pruneBackups_keeps_recent (old ++ [now]) now hin hmem
  have hne : pruneBackups (old ++ [now]) ≠ [] :=
    pruneBackups_ne_nil _ (by simp)
  rcases List.exists_mem_of_ne_nil _ hne with ⟨y, hy⟩
  have hyle := hrec y hy
  have hymem := pruneBackups_subset _ y hy
  rcases List.mem_append.mp hymem with h1 | h1
  · have := hnew y h1
    omega
  · rw [List.mem_singleton.mp h1] at hy
    exact hmem hy

/-- A fresh deployment: no `webinars.json` yet, no backups, writes succeed. -/
def freshServerState : ServerState where
  fileExists := false
  writeOk := true
  backups := []
  now := 100

/-- CX for C9: on a server where `webinars.json` does not yet exist, a valid
request saves successfully with `200 {success:true}` but no timestamped
backup file is written (the backup `copy` is guarded by `file_exists`). -/
theorem c9_save_likes_cex :
    (saveLikes (.withWebinars []) freshServerState).1 = 200 ∧
      (saveLikes (.withWebinars []) freshServerState).2.1 = SaveResp.success ∧
      (saveLikes (.withWebinars []) freshServerState).2.2.backups = [] := by
  exact ⟨rfl, rfl, rfl⟩

/-- C9 (amended): the endpoint answers `200 {success:true}` exactly when the
body decodes to a value with a `webinars` array and the file write succeeds;
it answers 400 with an error body on a malformed/missing body (invalid JSON,
falsy decode, or no `webinars` array); it answers 500 with an error body
when the write fails; and on every successful save it prunes the stored
backups to at most 5, keeping only the most recent ones (each unlinked
backup is no newer than every kept one), and — provided the canonical file
already existed before the save — it writes a backup timestamped `now`,
which survives the pruning whenever it is strictly newer than the previous
backups. A fresh deployment without a canonical file gets no backup. -/
theorem c9_save_likes_endpoint (req : ReqBody) (st : ServerState) :
    ((saveLikes req st).1 = 200 ∧ (saveLikes req st).2.1 = SaveResp.success ↔
      (∃ ws, req = .withWebinars ws) ∧ st.writeOk = true) ∧
      ((req = .failed ∨ req = .falsy ∨ req = .noWebinars) →
        (saveLikes req st).1 = 400 ∧
          ∃ msg, (saveLikes req st).2.1 = SaveResp.errorResp msg) ∧
      ((∃ ws, req = .withWebinars ws) → st.writeOk = false →
        (saveLikes req st).1 = 500 ∧
          ∃ msg, (saveLikes req st).2.1 = SaveResp.errorResp msg) ∧
      ((∃ ws, req = .withWebinars ws) → st.writeOk = true →
        (saveLikes req st).2.2.backups.length ≤ 5 ∧
          (∀ x ∈ (saveLikes req st).2.2.backups, x ∈ st.backups ++ [st.now]) ∧
          (∀ x ∈ st.backups, x ∉ (saveLikes req st).2.2.backups →
            ∀ y ∈ (saveLikes req st).2.2.backups, x ≤ y) ∧
          (st.fileExists = true → (∀ m ∈ st.backups, m < st.now) →
            st.now ∈ (saveLikes req st).2.2.backups)) := by
  cases req with
  | failed =>
    refine ⟨by simp [saveLikes], fun _ => ⟨rfl, "Invalid JSON data", rfl⟩, ?_, ?_⟩ <;>
      (intro h; obtain ⟨ws, hws⟩ := h; cases hws)
  | falsy =>
    refine ⟨by simp [saveLikes], fun _ => ⟨rfl, "Invalid JSON data", rfl⟩, ?_, ?_⟩ <;>
      (intro h; obtain ⟨ws, hws⟩ := h; cases hws)
  | noWebinars =>
    refine ⟨by simp [saveLikes], fun _ => ⟨rfl, "Invalid data structure", rfl⟩, ?_, ?_⟩ <;>
      (intro h; obtain ⟨ws, hws⟩ := h; cases hws)
  | withWebinars ws =>
    by_cases hw : st.writeOk = true
    · refine ⟨by simp [saveLikes, hw], by simp, ?_, ?_⟩
      · intro _ hfalse
        rw [hw] at hfalse
        cases hfalse
      · intro _ _
        by_cases hfe : st.fileExists = true
        · have hpre : (saveLikes (ReqBody.withWebinars ws) st).2.2.backups =
              pruneBackups (st.backups ++ [st.now]) := by
            simp [saveLikes, hw, hfe]
          refine ⟨?_, ?_, ?_, ?_⟩
          · rw [hpre]; exact pruneBackups_length_le _
          · intro x hx
            rw [hpre] at hx
            exact pruneBackups_subset _ x hx
          · intro x hx hnx y hy
            rw [hpre] at hnx hy
            exact pruneBackups_keeps_recent _ x (List.mem_append.mpr (Or.inl hx)) hnx y hy
          · intro _ hnew
            rw [hpre]
            exact pruneBackups_mem_newest st.backups st.now hnew
        · have hpre : (saveLikes (ReqBody.withWebinars ws) st).2.2.backups =
              pruneBackups st.backups := by
            simp [saveLikes, hw, hfe]
          refine ⟨?_, ?_, ?_, ?_⟩
          · rw [hpre]; exact pruneBackups_length_le _
          · intro x hx
            rw [hpre] at hx
            exact List.mem_append.mpr (Or.inl (pruneBackups_subset _ x hx))
          · intro x hx hnx y hy
            rw [hpre] at hnx hy
            exact pruneBackups_keeps_recent _ x hx hnx y hy
          · intro hfe1 _
            exact absurd hfe1 hfe
    · have hw1 : st.writeOk = false := by
        cases h : st.writeOk
        · rfl
        · exact absurd h hw
      refine ⟨?_, by simp, ?_, ?_⟩
      · constructor
        · intro h
          have : (saveLikes (ReqBody.withWebinars ws) st).1 = 500 := by
            simp [saveLikes, hw1]
          rw [this] at h
          cases h.1
        · intro h
          exact absurd h.2 hw
      · intro _ _
        refine ⟨?_, "Failed to save data", ?_⟩ <;> simp [saveLikes, hw1]
      · intro _ hfalse
        exact absurd hfalse hw

/-- A server with an existing canonical file and six old backups. -/
def busyServerState : ServerState where
  fileExists := true
  writeOk := true
  backups := [1, 2, 3, 4, 5, 6]
  now := 100

/-- Witness for the amended C9 theorem: a valid request against a populated
server succeeds with 200, leaves at most five backups including the fresh
one, and a malformed request is answered 400. -/
theorem c9_save_likes_endpoint_witness :
    (saveLikes (.withWebinars []) busyServerState).1 = 200 ∧
      (saveLikes (.withWebinars []) busyServerState).2.1 = SaveResp.success ∧
      (saveLikes (.withWebinars []) busyServerState).2.2.backups.length ≤ 5 ∧
      busyServerState.now ∈ (saveLikes (.withWebinars []) busyServerState).2.2.backups ∧
      (saveLikes ReqBody.failed busyServerState).1 = 400 :=
  ⟨((c9_save_likes_endpoint (.withWebinars []) busyServerState).1.mpr ⟨⟨[], rfl⟩, rfl⟩).1,
   ((c9_save_likes_endpoint (.withWebinars []) busyServerState).1.mpr ⟨⟨[], rfl⟩, rfl⟩).2,
   ((c9_save_likes_endpoint (.withWebinars []) busyServerState).2.2.2 ⟨[], rfl⟩ rfl).1,
   ((c9_save_likes_endpoint (.withWebinars []) busyServerState).2.2.2 ⟨[], rfl⟩ rfl).2.2.2
     rfl (by decide),
   ((c9_save_likes_endpoint ReqBody.failed busyServerState).2.1 (Or.inl rfl)).1⟩

end CpeLibrary

